import Mathlib

/-!
Verification development for the ElasticSearch query-engine repository.

The Python sources (src/data_indexer.py and src/search.py) are embedded
shallowly: JSON values become an inductive type, Python dictionary access
and truthiness are modelled explicitly, and code that can raise is modelled
with Except or an explicit error component. Filesystem and network I/O are
at the boundary: a source item is represented by its name together with the
outcome of reading/decoding/parsing it (the json.loads result, or a failure),
and the external search call is a function parameter that may return an error.
-/

set_option autoImplicit false
set_option maxRecDepth 8192

/-- JSON values as produced by json.loads. Numbers are modelled as integers
(the claims under study never depend on float behaviour). Objects keep key
order, as Python dictionaries do. -/
inductive JValue where
  | null
  | bool (b : Bool)
  | num (n : Int)
  | str (s : String)
  | arr (xs : List JValue)
  | obj (fields : List (String × JValue))

/-- Python truthiness of a value: None, False, 0, empty string, empty list
and empty dict are falsy, everything else is truthy. -/
def truthy : JValue → Bool
  | .null => false
  | .bool b => b
  | .num n => n != 0
  | .str s => !s.isEmpty
  | .arr xs => !xs.isEmpty
  | .obj fs => !fs.isEmpty

/-- Python d.get(k, default): the stored value when the key is present,
the default otherwise. -/
def pyGetD (d : List (String × JValue)) (k : String) (default : JValue) : JValue :=
  match d.lookup k with
  | some v => v
  | none => default

/-- Python d.get(k) with the implicit default None. -/
def pyGet (d : List (String × JValue)) (k : String) : JValue :=
  pyGetD d k .null

/-- Python str.lower, character by character. -/
def pyLower (s : String) : String :=
  ⟨s.toList.map Char.toLower⟩

/-- Python str.endswith, by character suffix comparison. -/
def pyEndsWith (s suffix : String) : Bool :=
  suffix.toList.isSuffixOf s.toList

/-- Suffix from the last dot of the tail of a name, when a dot occurs there. -/
def lastDotSuffix : List Char → Option (List Char)
  | [] => none
  | c :: rest =>
    match lastDotSuffix rest with
    | some s => some s
    | none => if c = '.' then some (c :: rest) else none

/-- Model of pathlib Path.suffix on a file name: the extension from the last
dot, empty when there is no dot or the only dot starts the name. -/
def pySuffix (name : String) : String :=
  match name.toList with
  | [] => ""
  | _ :: rest =>
    match lastDotSuffix rest with
    | some s => ⟨s⟩
    | none => ""

/-- Document id derivation from data_indexer.py, line 37 and its copies:
the id is data.get of uuid, or-else the nested thread get of uuid, or-else
the fallback string. The or-chain is Python: a falsy first operand selects
the next one, and the nested .get is only evaluated when the uuid lookup was
falsy; it raises (AttributeError) when the thread value is not a dictionary. -/
def deriveDocId (data : List (String × JValue)) (fallback : String) : Except String JValue :=
  let u := pyGet data "uuid"
  if truthy u then .ok u
  else
    match pyGetD data "thread" (.obj []) with
    | .obj tf =>
      let tu := pyGet tf "uuid"
      if truthy tu then .ok tu else .ok (.str fallback)
    | _ => .error "AttributeError: thread value has no attribute get"

/-- The fixed document shape built by iter_jsons_in_path: uuid plus the eight
optional fields, each holding data.get(field), i.e. null when absent. -/
structure Doc where
  uuid : JValue
  title : JValue
  text : JValue
  author : JValue
  published : JValue
  language : JValue
  sentiment : JValue
  categories : JValue
  url : JValue

/-- Projection of a parsed JSON object into the Doc shape, field by field as
written in data_indexer.py lines 38-48. -/
def projectDoc (data : List (String × JValue)) (docId : JValue) : Doc :=
  { uuid := docId
    title := pyGet data "title"
    text := pyGet data "text"
    author := pyGet data "author"
    published := pyGet data "published"
    language := pyGet data "language"
    sentiment := pyGet data "sentiment"
    categories := pyGet data "categories"
    url := pyGet data "url" }

/-- Processing of one successfully parsed item: data.get calls require the
parsed value to be a dictionary (anything else raises AttributeError, which
the surrounding try/except turns into a skip); then the id is derived and the
document projected. -/
def processItem (parsed : JValue) (fallback : String) : Except String (JValue × Doc) :=
  match parsed with
  | .obj data =>
    match deriveDocId data fallback with
    | .ok docId => .ok (docId, projectDoc data docId)
    | .error e => .error e
  | _ => .error "AttributeError: parsed value has no attribute get"

/-- A source item as seen by the extractor: its name inside the container and
the outcome of read + decode + json.loads (none when reading or parsing
raised). The utf-8 / latin-1 decoding fallback happens before this point and
never fails by itself, so it is absorbed into the parse outcome. -/
structure RawItem where
  name : String
  parsed : Option JValue

/-- Iteration core shared by the directory, zip and single-file branches of
iter_jsons_in_path: each item is processed inside try/except, a failure
prints a diagnostic naming the item and the loop continues. Returns the
yielded (id, doc) pairs and the printed diagnostics, in order. -/
def extractItems (fallbackOf : String → String) : List RawItem → List (JValue × Doc) × List String
  | [] => ([], [])
  | it :: rest =>
    let r := extractItems fallbackOf rest
    match it.parsed with
    | none => (r.1, ("Failed reading " ++ it.name) :: r.2)
    | some v =>
      match processItem v (fallbackOf it.name) with
      | .ok p => (p :: r.1, r.2)
      | .error _ => (r.1, ("Failed reading " ++ it.name) :: r.2)

/-- Fallback id for an item of a directory source: path.name ++ "/" ++ p.name. -/
def dirFallback (dirName itemName : String) : String :=
  dirName ++ "/" ++ itemName

/-- Directory branch of iter_jsons_in_path: the items are the .json files
found by the sorted recursive walk, in walk order. -/
def extractDirJsons (dirName : String) (items : List RawItem) : List (JValue × Doc) × List String :=
  extractItems (fun n => dirFallback dirName n) items

/-- Fallback id for a zip member: path.stem ++ "/" ++ member name. -/
def zipFallback (zipStem memberName : String) : String :=
  zipStem ++ "/" ++ memberName

/-- Zip branch of iter_jsons_in_path: members whose lowered name ends in
.json are processed in listing order. -/
def extractZipJsons (zipStem : String) (members : List RawItem) : List (JValue × Doc) × List String :=
  extractItems (fun n => zipFallback zipStem n)
    (members.filter (fun it => pyEndsWith (pyLower it.name) ".json"))

/-- Single-file branch of iter_jsons_in_path: one item whose fallback id is
path.name itself. -/
def extractSingleJson (fileName : String) (parsed : Option JValue) : List (JValue × Doc) × List String :=
  extractItems (fun _ => fileName) [⟨fileName, parsed⟩]

theorem deriveDocId_of_truthy_uuid (data : List (String × JValue)) (fallback : String)
    (h : truthy (pyGet data "uuid") = true) :
    deriveDocId data fallback = .ok (pyGet data "uuid") := by
  simp [deriveDocId, h]

/-- C1, as stated, is refuted here: an item whose top-level uuid field is the
empty string (a falsy value) does not get that value as its id; the or-chain
falls through to the nested thread uuid. -/
theorem C1_counterexample :
    processItem
      (.obj [("uuid", .str ""), ("thread", .obj [("uuid", .str "T")])])
      "container/item.json"
      = .ok (.str "T", projectDoc [("uuid", .str ""), ("thread", .obj [("uuid", .str "T")])] (.str "T"))
    ∧ JValue.str "T" ≠ JValue.str "" := by
  constructor
  · rfl
  · simp

/-- C1 (amended): for every valid JSON source item whose parsed object
contains a top-level uuid field with a truthy (non-falsy) value, the yielded
pair has exactly that value as its id, taking priority over the nested thread
identifier and the synthesized fallback; a falsy uuid value is instead
treated like an absent one. -/
theorem C1_amended (data : List (String × JValue)) (v : JValue) (fallback : String)
    (hv : data.lookup "uuid" = some v) (ht : truthy v = true) :
    processItem (.obj data) fallback = .ok (v, projectDoc data v) := by
  have hget : pyGet data "uuid" = v := by
    simp [pyGet, pyGetD, hv]
  simp [processItem, deriveDocId, hget, ht]

theorem C1_amended_witness :
    ([("uuid", .str "U"), ("thread", .obj [("uuid", .str "T")])] : List (String × JValue)).lookup "uuid"
        = some (.str "U")
    ∧ truthy (.str "U") = true
    ∧ processItem (.obj [("uuid", .str "U"), ("thread", .obj [("uuid", .str "T")])]) "fb"
        = .ok (.str "U", projectDoc [("uuid", .str "U"), ("thread", .obj [("uuid", .str "T")])] (.str "U")) :=
  ⟨rfl, rfl, C1_amended _ _ "fb" rfl rfl⟩

/-- Absence of the nested thread uuid, as the claim states it: either there
is no thread field, or the thread field is an object without a uuid key, or
the thread field is not an object at all (in which case the code raises and
the item yields nothing). -/
def lacksThreadUuid (data : List (String × JValue)) : Prop :=
  data.lookup "thread" = none
  ∨ (∃ tf, data.lookup "thread" = some (.obj tf) ∧ tf.lookup "uuid" = none)
  ∨ (∃ t, data.lookup "thread" = some t ∧ ∀ tf, t ≠ .obj tf)

/-- C2: for every source item (directory, zip, or single file) lacking both
the top-level uuid and the nested thread uuid, any yielded pair carries the
synthesized fallback id of that source kind — a fixed function of the
container name and the item name — and that fallback is non-empty. The
embedding is a pure function of the unchanged input, so the id is the same
on every repeated invocation. -/
theorem C2_fallback_id (data : List (String × JValue))
    (dirName itemName zipStem memberName fileName : String)
    (hfile : pyLower (pySuffix fileName) = ".json")
    (h1 : data.lookup "uuid" = none) (h2 : lacksThreadUuid data) :
    (∀ id doc, processItem (.obj data) (dirFallback dirName itemName) = .ok (id, doc)
        → id = .str (dirFallback dirName itemName))
    ∧ (∀ id doc, processItem (.obj data) (zipFallback zipStem memberName) = .ok (id, doc)
        → id = .str (zipFallback zipStem memberName))
    ∧ (∀ id doc, processItem (.obj data) fileName = .ok (id, doc) → id = .str fileName)
    ∧ dirFallback dirName itemName ≠ ""
    ∧ zipFallback zipStem memberName ≠ ""
    ∧ fileName ≠ "" := by
  have hget : pyGet data "uuid" = .null := by
    simp [pyGet, pyGetD, h1]
  have hkey : ∀ fb id doc, processItem (.obj data) fb = .ok (id, doc) → id = .str fb := by
    intro fb id doc hok
    rcases h2 with hnone | ⟨tf, htf, htu⟩ | ⟨t, ht, hno⟩
    · have hpi : processItem (.obj data) fb = .ok (.str fb, projectDoc data (.str fb)) := by
        simp [processItem, deriveDocId, pyGet, pyGetD, truthy, h1, hnone]
      rw [hpi] at hok
      simp only [Except.ok.injEq, Prod.mk.injEq] at hok
      exact hok.1.symm
    · have hpi : processItem (.obj data) fb = .ok (.str fb, projectDoc data (.str fb)) := by
        simp [processItem, deriveDocId, pyGet, pyGetD, truthy, h1, htf, htu]
      rw [hpi] at hok
      simp only [Except.ok.injEq, Prod.mk.injEq] at hok
      exact hok.1.symm
    · exfalso
      cases t with
      | obj tf => exact hno tf rfl
      | null => simp [processItem, deriveDocId, pyGet, pyGetD, truthy, h1, ht] at hok
      | bool b => simp [processItem, deriveDocId, pyGet, pyGetD, truthy, h1, ht] at hok
      | num n => simp [processItem, deriveDocId, pyGet, pyGetD, truthy, h1, ht] at hok
      | str s => simp [processItem, deriveDocId, pyGet, pyGetD, truthy, h1, ht] at hok
      | arr xs => simp [processItem, deriveDocId, pyGet, pyGetD, truthy, h1, ht] at hok
  have hslash : ∀ a b : String, a ++ "/" ++ b ≠ "" := by
    intro a b hab
    have h0 : (a ++ "/" ++ b).length = 0 := by rw [hab]; rfl
    have hl1 : ("/" : String).length = 1 := rfl
    rw [String.length_append, String.length_append, hl1] at h0
    omega
  refine ⟨hkey _, hkey _, hkey _, hslash dirName itemName, hslash zipStem memberName, ?_⟩
  intro h
  subst h
  exact absurd hfile (by decide)

theorem C2_fallback_id_witness :
    (pyLower (pySuffix "item.json") = ".json")
    ∧ (([("title", .str "t")] : List (String × JValue)).lookup "uuid" = none)
    ∧ lacksThreadUuid [("title", .str "t")]
    ∧ (∀ id doc,
        processItem (.obj [("title", .str "t")]) (dirFallback "box" "a.json") = .ok (id, doc)
          → id = .str (dirFallback "box" "a.json")) := by
  refine ⟨by decide, rfl, Or.inl rfl, ?_⟩
  exact (C2_fallback_id [("title", .str "t")] "box" "a.json" "zipbox" "m.json" "item.json"
    (by decide) rfl (Or.inl rfl)).1

/-- Survival test for one parsed value: processItem succeeds exactly when the
value is a dictionary and either its uuid is truthy or its thread value
(defaulting to the empty dictionary) is itself a dictionary. -/
def projectable : JValue → Bool
  | .obj data =>
    truthy (pyGet data "uuid")
      || (match pyGetD data "thread" (.obj []) with
          | .obj _ => true
          | _ => false)
  | _ => false

theorem processItem_ok_of_projectable (v : JValue) (fb : String)
    (h : projectable v = true) : ∃ p, processItem v fb = .ok p := by
  cases v with
  | obj data =>
    cases hu : truthy (pyGet data "uuid") with
    | true =>
      exact ⟨(pyGet data "uuid", projectDoc data (pyGet data "uuid")),
        by simp [processItem, deriveDocId, hu]⟩
    | false =>
      cases ht : pyGetD data "thread" (.obj []) with
      | obj tf =>
        cases htu : truthy (pyGet tf "uuid") with
        | true =>
          exact ⟨(pyGet tf "uuid", projectDoc data (pyGet tf "uuid")),
            by simp [processItem, deriveDocId, hu, ht, htu]⟩
        | false =>
          exact ⟨(.str fb, projectDoc data (.str fb)),
            by simp [processItem, deriveDocId, hu, ht, htu]⟩
      | null => simp [projectable, hu, ht] at h
      | bool b => simp [projectable, hu, ht] at h
      | num n => simp [projectable, hu, ht] at h
      | str s => simp [projectable, hu, ht] at h
      | arr xs => simp [projectable, hu, ht] at h
  | null => simp [projectable] at h
  | bool b => simp [projectable] at h
  | num n => simp [projectable] at h
  | str s => simp [projectable] at h
  | arr xs => simp [projectable] at h

theorem processItem_ok_shape (v : JValue) (fb : String) (p : JValue × Doc)
    (h : processItem v fb = .ok p) :
    ∃ data, v = .obj data ∧ p.2 = projectDoc data p.1 := by
  cases v with
  | obj data =>
    refine ⟨data, rfl, ?_⟩
    simp only [processItem] at h
    rcases hd : deriveDocId data fb with e | docId <;> rw [hd] at h
    · exact absurd h (by simp)
    · simp only [Except.ok.injEq] at h
      rw [← h]
  | null => exact absurd h (by simp [processItem])
  | bool b => exact absurd h (by simp [processItem])
  | num n => exact absurd h (by simp [processItem])
  | str s => exact absurd h (by simp [processItem])
  | arr xs => exact absurd h (by simp [processItem])

theorem extractItems_append (f : String → String) (xs ys : List RawItem) :
    extractItems f (xs ++ ys)
      = ((extractItems f xs).1 ++ (extractItems f ys).1,
         (extractItems f xs).2 ++ (extractItems f ys).2) := by
  induction xs with
  | nil => simp [extractItems]
  | cons it rest ih =>
    rcases hv : it.parsed with _ | v
    · simp [extractItems, hv, ih]
    · rcases hpi : processItem v (f it.name) with e | p
      · simp [extractItems, hv, hpi, ih]
      · simp [extractItems, hv, hpi, ih]

theorem extractItems_all_ok (f : String → String) (items : List RawItem)
    (h : ∀ it ∈ items, ∃ v, it.parsed = some v ∧ projectable v = true) :
    (extractItems f items).1.length = items.length ∧ (extractItems f items).2 = [] := by
  induction items with
  | nil => simp [extractItems]
  | cons it rest ih =>
    obtain ⟨v, hv, hproj⟩ := h it (by simp)
    obtain ⟨p, hp⟩ := processItem_ok_of_projectable v (f it.name) hproj
    have ihr := ih (fun x hx => h x (by simp [hx]))
    simp [extractItems, hv, hp, List.length_cons, ihr.1, ihr.2]

theorem extractItems_mem (f : String → String) (items : List RawItem) :
    ∀ p ∈ (extractItems f items).1,
      ∃ it ∈ items, ∃ v, it.parsed = some v ∧ processItem v (f it.name) = .ok p := by
  induction items with
  | nil => simp [extractItems]
  | cons it rest ih =>
    intro p hp
    rcases hv : it.parsed with _ | v
    · simp only [extractItems, hv] at hp
      obtain ⟨x, hx, w⟩ := ih p hp
      exact ⟨x, by simp [hx], w⟩
    · rcases hpi : processItem v (f it.name) with e | q
      · simp only [extractItems, hv, hpi] at hp
        obtain ⟨x, hx, w⟩ := ih p hp
        exact ⟨x, by simp [hx], w⟩
      · simp only [extractItems, hv, hpi] at hp
        rcases List.mem_cons.1 hp with hpq | hrest
        · exact ⟨it, by simp, v, hv, by rw [hpi, hpq]⟩
        · obtain ⟨x, hx, w⟩ := ih p hrest
          exact ⟨x, by simp [hx], w⟩

/-- Faithfulness of the projection for one optional field: a value present in
the source appears verbatim, an absent field becomes an explicit null. -/
def fieldFaithful (data : List (String × JValue)) (k : String) (fieldVal : JValue) : Prop :=
  (∀ v, data.lookup k = some v → fieldVal = v) ∧ (data.lookup k = none → fieldVal = .null)

/-- Faithfulness of a whole projected document over the eight optional fields. -/
def docFieldsFaithful (data : List (String × JValue)) (doc : Doc) : Prop :=
  fieldFaithful data "title" doc.title
  ∧ fieldFaithful data "text" doc.text
  ∧ fieldFaithful data "author" doc.author
  ∧ fieldFaithful data "published" doc.published
  ∧ fieldFaithful data "language" doc.language
  ∧ fieldFaithful data "sentiment" doc.sentiment
  ∧ fieldFaithful data "categories" doc.categories
  ∧ fieldFaithful data "url" doc.url

theorem pyGet_faithful (data : List (String × JValue)) (k : String) :
    fieldFaithful data k (pyGet data k) := by
  constructor
  · intro v hv
    simp [pyGet, pyGetD, hv]
  · intro hn
    simp [pyGet, pyGetD, hn]

theorem projectDoc_faithful (data : List (String × JValue)) (id : JValue) :
    docFieldsFaithful data (projectDoc data id) :=
  ⟨pyGet_faithful data "title", pyGet_faithful data "text", pyGet_faithful data "author",
   pyGet_faithful data "published", pyGet_faithful data "language",
   pyGet_faithful data "sentiment", pyGet_faithful data "categories",
   pyGet_faithful data "url"⟩

/-- C3, as stated, is refuted here: a directory holding a single well-formed
JSON item whose top-level value is an array (not an object) yields zero
pairs, not one — the attribute error raised by data.get is caught and the
item is skipped with a diagnostic. -/
theorem C3_counterexample :
    (extractDirJsons "data" [⟨"a.json", some (.arr [.num 1, .num 2])⟩]).1.length = 0
    ∧ (extractDirJsons "data" [⟨"a.json", some (.arr [.num 1, .num 2])⟩]).1.length ≠ 1 := by
  constructor <;> decide

/-- C3 (amended): for every source of N well-formed JSON items each of whose
parsed values is a JSON object that survives projection (its uuid is truthy,
or its thread field — if inspected — is an object), extraction yields
exactly N pairs with no diagnostics; every yielded pair is the projection of
the corresponding parsed object, and the projection keeps present optional
fields verbatim while mapping absent ones to an explicit null under a
present key (a Doc always carries all nine keys). -/
theorem C3_amended (dirName : String) (items : List RawItem)
    (h : ∀ it ∈ items, ∃ v, it.parsed = some v ∧ projectable v = true) :
    (extractDirJsons dirName items).1.length = items.length
    ∧ (extractDirJsons dirName items).2 = []
    ∧ (∀ p ∈ (extractDirJsons dirName items).1,
        ∃ it ∈ items, ∃ data, it.parsed = some (.obj data)
          ∧ processItem (.obj data) (dirFallback dirName it.name) = .ok p
          ∧ p.2 = projectDoc data p.1
          ∧ docFieldsFaithful data p.2) := by
  obtain ⟨hlen, hdiag⟩ :=
    extractItems_all_ok (fun n => dirFallback dirName n) items h
  refine ⟨hlen, hdiag, ?_⟩
  intro p hp
  obtain ⟨it, hit, v, hv, hok⟩ :=
    extractItems_mem (fun n => dirFallback dirName n) items p hp
  obtain ⟨data, hdata, hproj⟩ := processItem_ok_shape v _ p hok
  subst hdata
  refine ⟨it, hit, data, hv, hok, hproj, ?_⟩
  rw [hproj]
  exact projectDoc_faithful data p.1

theorem C3_amended_witness :
    (extractDirJsons "news"
        [⟨"a.json", some (.obj [("uuid", .str "A"), ("text", .str "hello")])⟩,
         ⟨"b.json", some (.obj [("title", .str "B")])⟩]).1.length = 2 := by
  refine (C3_amended "news" _ ?_).1
  intro it hit
  rcases List.mem_cons.1 hit with h | h
  · exact ⟨.obj [("uuid", .str "A"), ("text", .str "hello")], by rw [h], by decide⟩
  · rcases List.mem_cons.1 h with h2 | h2
    · exact ⟨.obj [("title", .str "B")], by rw [h2], by decide⟩
    · exact absurd h2 (by simp)

/-- C5, as stated, is refuted here: in a directory of three JSON items where
the middle one is corrupt and the outer two are valid JSON (well-formed
arrays), extraction yields zero pairs and three diagnostics, not two pairs
and one diagnostic — valid non-object JSON is also skipped. -/
theorem C5_counterexample :
    (extractDirJsons "d"
        [⟨"a.json", some (.arr [])⟩, ⟨"b.json", none⟩, ⟨"c.json", some (.arr [])⟩]).1.length = 0
    ∧ (extractDirJsons "d"
        [⟨"a.json", some (.arr [])⟩, ⟨"b.json", none⟩, ⟨"c.json", some (.arr [])⟩]).2.length = 3 := by
  constructor <;> rfl

/-- C5 (amended): for every directory of three JSON items in which one item
is corrupt (its read or parse fails) and the other two parse to JSON objects
that survive projection, extraction yields exactly two pairs — the corrupt
item is skipped wherever it sits — and exactly one diagnostic naming the
corrupt item; the embedding returns normally, so one bad item never aborts
extraction of the remaining items. -/
theorem C5_amended (dirName : String) (xs ys : List RawItem) (bad : RawItem)
    (hbad : bad.parsed = none)
    (hgood : ∀ it ∈ xs ++ ys, ∃ v, it.parsed = some v ∧ projectable v = true)
    (hlen : (xs ++ ys).length = 2) :
    (extractDirJsons dirName (xs ++ bad :: ys)).1.length = 2
    ∧ (extractDirJsons dirName (xs ++ bad :: ys)).2 = ["Failed reading " ++ bad.name] := by
  have hx := extractItems_all_ok (fun n => dirFallback dirName n) xs
    (fun it hit => hgood it (List.mem_append_left ys hit))
  have hy := extractItems_all_ok (fun n => dirFallback dirName n) ys
    (fun it hit => hgood it (List.mem_append_right xs hit))
  have happ := extractItems_append (fun n => dirFallback dirName n) xs (bad :: ys)
  have hcons : extractItems (fun n => dirFallback dirName n) (bad :: ys)
      = ((extractItems (fun n => dirFallback dirName n) ys).1,
         ("Failed reading " ++ bad.name)
           :: (extractItems (fun n => dirFallback dirName n) ys).2) := by
    simp [extractItems, hbad]
  rw [List.length_append] at hlen
  constructor
  · show (extractItems (fun n => dirFallback dirName n) (xs ++ bad :: ys)).1.length = 2
    rw [happ, hcons]
    simp only [List.length_append, hx.1, hy.1]
    omega
  · show (extractItems (fun n => dirFallback dirName n) (xs ++ bad :: ys)).2
        = ["Failed reading " ++ bad.name]
    rw [happ, hcons]
    simp [hx.2, hy.2]

theorem C5_amended_witness :
    (extractDirJsons "d"
        [⟨"a.json", some (.obj [("uuid", .str "A")])⟩,
         ⟨"b.json", none⟩,
         ⟨"c.json", some (.obj [("uuid", .str "C")])⟩]).1.length = 2
    ∧ (extractDirJsons "d"
        [⟨"a.json", some (.obj [("uuid", .str "A")])⟩,
         ⟨"b.json", none⟩,
         ⟨"c.json", some (.obj [("uuid", .str "C")])⟩]).2
      = ["Failed reading b.json"] := by
  have h := C5_amended "d"
    [⟨"a.json", some (.obj [("uuid", .str "A")])⟩]
    [⟨"c.json", some (.obj [("uuid", .str "C")])⟩]
    ⟨"b.json", none⟩ rfl ?_ rfl
  · exact h
  · intro it hit
    rcases List.mem_cons.1 hit with h1 | h1
    · exact ⟨.obj [("uuid", .str "A")], by rw [h1], by decide⟩
    · rcases List.mem_cons.1 h1 with h2 | h2
      · exact ⟨.obj [("uuid", .str "C")], by rw [h2], by decide⟩
      · exact absurd h2 (by simp)

/-- Write-action record appended by bulk_index for each (doc_id, doc) pair:
target index, document id, document body. -/
structure EsAction where
  index : String
  id : JValue
  source : Doc

/-- Construction of one bulk action from a (doc_id, doc) pair. -/
def mkAction (indexName : String) (p : JValue × Doc) : EsAction :=
  ⟨indexName, p.1, p.2⟩

/-- Loop of bulk_index from data_indexer.py lines 123-143: actions accumulate
per pair; once the accumulator reaches batch_size it is submitted (one
helpers.bulk call, recorded here as one batch) and the total grows by its
length; a non-empty remainder is submitted after the stream ends. Returns
the submitted batches in order together with the returned total. -/
def bulkLoop (indexName : String) (batchSize : Nat) :
    List (JValue × Doc) → List EsAction → List (List EsAction) × Nat
  | [], actions => if actions.isEmpty then ([], 0) else ([actions], actions.length)
  | p :: rest, actions =>
    let actions2 := actions ++ [mkAction indexName p]
    if batchSize ≤ actions2.length then
      let r := bulkLoop indexName batchSize rest []
      (actions2 :: r.1, actions2.length + r.2)
    else
      bulkLoop indexName batchSize rest actions2

/-- Entry point of bulk_index: the loop starts from an empty accumulator and
zero total. -/
def bulk_index (indexName : String) (batchSize : Nat) (docs : List (JValue × Doc)) :
    List (List EsAction) × Nat :=
  bulkLoop indexName batchSize docs []

theorem bulkLoop_total (indexName : String) (B : Nat) (docs : List (JValue × Doc)) :
    ∀ acc, (bulkLoop indexName B docs acc).2 = acc.length + docs.length := by
  induction docs with
  | nil =>
    intro acc
    rcases acc with _ | ⟨a, as⟩ <;> simp [bulkLoop]
  | cons p rest ih =>
    intro acc
    simp only [bulkLoop]
    split
    · simp only [ih]
      simp [List.length_append]
      omega
    · simp only [ih]
      simp [List.length_append]
      omega

theorem bulkLoop_small (indexName : String) (B : Nat) :
    ∀ (docs : List (JValue × Doc)) (acc : List EsAction),
      acc.length + docs.length ≤ B → 0 < acc.length + docs.length →
      bulkLoop indexName B docs acc
        = ([acc ++ docs.map (mkAction indexName)], acc.length + docs.length) := by
  intro docs
  induction docs with
  | nil =>
    intro acc hle hpos
    rcases acc with _ | ⟨a, as⟩
    · simp at hpos
    · simp [bulkLoop]
  | cons p rest ih =>
    intro acc hle hpos
    simp only [bulkLoop]
    by_cases hc : B ≤ (acc ++ [mkAction indexName p]).length
    · rw [if_pos hc]
      simp only [List.length_append, List.length_cons, List.length_nil] at hc hle
      have hrest : rest = [] := by
        cases rest with
        | nil => rfl
        | cons q qs => simp at hle; omega
      subst hrest
      simp [bulkLoop]
    · rw [if_neg hc]
      simp only [List.length_append, List.length_cons, List.length_nil] at hc hle
      have h1 : (acc ++ [mkAction indexName p]).length + rest.length ≤ B := by
        simp
        omega
      have h2 : 0 < (acc ++ [mkAction indexName p]).length + rest.length := by
        simp
      rw [ih _ h1 h2]
      simp [List.length_append]
      omega

theorem bulkLoop_cross (indexName : String) (B : Nat) :
    ∀ (docs : List (JValue × Doc)) (acc : List EsAction),
      acc.length < B → B ≤ acc.length + docs.length →
      bulkLoop indexName B docs acc
        = ((acc ++ (docs.take (B - acc.length)).map (mkAction indexName))
              :: (bulkLoop indexName B (docs.drop (B - acc.length)) []).1,
           B + (bulkLoop indexName B (docs.drop (B - acc.length)) []).2) := by
  intro docs
  induction docs with
  | nil =>
    intro acc h1 h2
    simp at h2
    omega
  | cons p rest ih =>
    intro acc h1 h2
    simp only [bulkLoop]
    by_cases hc : B ≤ (acc ++ [mkAction indexName p]).length
    · rw [if_pos hc]
      simp only [List.length_append, List.length_cons, List.length_nil] at hc
      have hb : B = acc.length + 1 := by omega
      have htake : B - acc.length = 1 := by omega
      rw [htake]
      simp [hb]
    · rw [if_neg hc]
      simp only [List.length_append, List.length_cons, List.length_nil] at hc
      have h1' : (acc ++ [mkAction indexName p]).length < B := by
        simp
        omega
      have h2' : B ≤ (acc ++ [mkAction indexName p]).length + rest.length := by
        simp only [List.length_cons] at h2
        simp
        omega
      rw [ih _ h1' h2']
      obtain ⟨k, hk⟩ : ∃ k, B - acc.length = k + 1 := ⟨B - acc.length - 1, by omega⟩
      have hk2 : B - (acc ++ [mkAction indexName p]).length = k := by
        simp
        omega
      rw [hk, hk2]
      simp [List.append_assoc]

/-- C4: for a batch size B of at least one and a stream of exactly 2B+1
pairs, bulk_index issues exactly three bulk submissions of sizes B, B and 1,
and returns 2B+1; for every finite stream the returned total equals the
stream length. -/
theorem C4_batching (indexName : String) (B : Nat) (hB : 1 ≤ B)
    (docs docs2 : List (JValue × Doc)) (hlen : docs.length = 2 * B + 1) :
    (bulk_index indexName B docs).1.map List.length = [B, B, 1]
    ∧ (bulk_index indexName B docs).2 = 2 * B + 1
    ∧ (bulk_index indexName B docs2).2 = docs2.length := by
  have htot : (bulk_index indexName B docs2).2 = docs2.length := by
    have := bulkLoop_total indexName B docs2 []
    simpa [bulk_index] using this
  have hstep1 := bulkLoop_cross indexName B docs []
    (by simpa using hB) (by simp only [List.length_nil, Nat.zero_add, hlen]; omega)
  simp only [List.length_nil, Nat.sub_zero, List.nil_append] at hstep1
  have hdrop1 : (docs.drop B).length = B + 1 := by
    simp only [List.length_drop, hlen]
    omega
  have hstep2 := bulkLoop_cross indexName B (docs.drop B) []
    (by simpa using hB) (by simp only [List.length_nil, Nat.zero_add, hdrop1]; omega)
  simp only [List.length_nil, Nat.sub_zero, List.nil_append] at hstep2
  have hdrop2 : ((docs.drop B).drop B).length = 1 := by
    simp only [List.length_drop, hlen]
    omega
  have hstep3 := bulkLoop_small indexName B ((docs.drop B).drop B) []
    (by simp only [List.length_nil, Nat.zero_add, hdrop2]; omega)
    (by simp only [List.length_nil, Nat.zero_add, hdrop2]; omega)
  simp only [List.length_nil, Nat.zero_add, List.nil_append, hdrop2] at hstep3
  have htake1 : (docs.take B).length = B := by
    simp only [List.length_take, hlen]
    omega
  have htake2 : ((docs.drop B).take B).length = B := by
    simp only [List.length_take, hdrop1]
    omega
  refine ⟨?_, ?_, htot⟩
  · show (bulkLoop indexName B docs []).1.map List.length = [B, B, 1]
    rw [hstep1, hstep2, hstep3]
    simp [htake1, htake2, hdrop2]
    omega
  · show (bulkLoop indexName B docs []).2 = 2 * B + 1
    have := bulkLoop_total indexName B docs []
    simp only [this, List.length_nil, hlen]
    omega

theorem C4_batching_witness :
    (bulk_index "news" 1
        [(JValue.str "a", projectDoc [] (JValue.str "a")),
         (JValue.str "b", projectDoc [] (JValue.str "b")),
         (JValue.str "c", projectDoc [] (JValue.str "c"))]).1.map List.length = [1, 1, 1]
    ∧ (bulk_index "news" 1
        [(JValue.str "a", projectDoc [] (JValue.str "a")),
         (JValue.str "b", projectDoc [] (JValue.str "b")),
         (JValue.str "c", projectDoc [] (JValue.str "c"))]).2 = 2 * 1 + 1
    ∧ (bulk_index "news" 1 [(JValue.str "d", projectDoc [] (JValue.str "d"))]).2
        = [(JValue.str "d", projectDoc [] (JValue.str "d"))].length :=
  C4_batching "news" 1 (by decide) _ _ rfl

/-- Query body built by search_boolean_es (search.py lines 25-39): a
query_string query with the verbatim query text over the six fixed fields. -/
def buildQueryBody (queryText : String) : JValue :=
  .obj [("query", .obj [("query_string", .obj
    [("query", .str queryText),
     ("fields", .arr [.str "title", .str "text", .str "author",
                      .str "language", .str "url", .str "categories"])])])]

/-- search_boolean_es from search.py lines 9-47: the external search call is
a parameter (index name, body, size to result-or-raise); an exception is
caught, a diagnostic is printed and None is returned. The Option result type
records that the embedded function itself never raises. -/
def search_boolean_es (esSearch : String → JValue → Nat → Except String JValue)
    (queryText indexName : String) (size : Nat) : Option JValue × List String :=
  match esSearch indexName (buildQueryBody queryText) size with
  | .ok res => (some res, [])
  | .error e => (none, ["Error querying Elasticsearch: " ++ e])

/-- C6: for every query text, index name and size, when the underlying
search submission raises, search_boolean_es prints one diagnostic and
returns None instead of propagating the failure; its total result type
witnesses that it never raises to its caller. -/
theorem C6_search_error_recovery
    (esSearch : String → JValue → Nat → Except String JValue)
    (queryText indexName : String) (size : Nat) (e : String)
    (h : esSearch indexName (buildQueryBody queryText) size = .error e) :
    search_boolean_es esSearch queryText indexName size
      = (none, ["Error querying Elasticsearch: " ++ e]) := by
  simp [search_boolean_es, h]

theorem C6_search_error_recovery_witness :
    search_boolean_es (fun _ _ _ => .error "ConnectionError") "cats AND dogs" "news" 10
      = (none, ["Error querying Elasticsearch: ConnectionError"]) :=
  C6_search_error_recovery (fun _ _ _ => .error "ConnectionError")
    "cats AND dogs" "news" 10 "ConnectionError" rfl

/-- Python string slice s[:n], by character count. -/
def strSlice (s : String) (n : Nat) : String :=
  ⟨s.data.take n⟩

/-- Snippet computation of search.py line 77:
text sliced to 200 characters, plus an ellipsis only when len(text) > 200. -/
def makeSnippet (text : String) : String :=
  strSlice text 200 ++ (if 200 < text.length then "..." else "")

/-- C7: a text longer than 200 characters is displayed as exactly its first
200 characters followed by the ellipsis marker (the slice is a prefix of the
text of length exactly 200); a text of at most 200 characters is displayed
whole with no marker. Truncation counts raw characters only. -/
theorem C7_snippet (t : String) :
    (200 < t.length →
      makeSnippet t = strSlice t 200 ++ "..."
        ∧ (strSlice t 200).length = 200
        ∧ ∃ rest, t.data = (strSlice t 200).data ++ rest)
    ∧ (t.length ≤ 200 → makeSnippet t = t) := by
  obtain ⟨cs⟩ := t
  constructor
  · intro hgt
    have hgt2 : 200 < cs.length := by simpa [String.length] using hgt
    refine ⟨by simp [makeSnippet, String.length, hgt2], ?_, ?_⟩
    · have hlen : (200 : Nat) ≤ cs.length := le_of_lt hgt2
      simp only [strSlice, String.length]
      simpa using hlen
    · exact ⟨cs.drop 200, (List.take_append_drop 200 cs).symm⟩
  · intro hle
    have hle2 : cs.length ≤ 200 := by simpa [String.length] using hle
    have hnot : ¬ (200 < cs.length) := not_lt.mpr hle2
    have htake : cs.take 200 = cs := List.take_of_length_le hle2
    show (strSlice ⟨cs⟩ 200 ++ if 200 < String.length ⟨cs⟩ then "..." else "") = ⟨cs⟩
    have hnot2 : ¬ (200 < String.length ⟨cs⟩) := by simpa [String.length] using hnot
    rw [if_neg hnot2]
    show String.mk (cs.take 200 ++ "".data) = ⟨cs⟩
    rw [htake]
    simp

theorem C7_snippet_witness :
    (makeSnippet ⟨List.replicate 250 'a'⟩
        = strSlice ⟨List.replicate 250 'a'⟩ 200 ++ "...")
    ∧ (strSlice ⟨List.replicate 250 'a'⟩ 200).length = 200
    ∧ makeSnippet ⟨List.replicate 150 'a'⟩ = ⟨List.replicate 150 'a'⟩ :=
  ⟨((C7_snippet ⟨List.replicate 250 'a'⟩).1 (by simp [String.length])).1,
   ((C7_snippet ⟨List.replicate 250 'a'⟩).1 (by simp [String.length])).2.1,
   (C7_snippet ⟨List.replicate 150 'a'⟩).2 (by simp [String.length])⟩

mutual
/-- Python repr of a JSON value, used when a value is rendered inside a
container; scalars render as in Python (None, True, False, digits), strings
with surrounding quotes. -/
def pyRepr : JValue → String
  | .null => "None"
  | .bool true => "True"
  | .bool false => "False"
  | .num n => toString n
  | .str s => "\x27" ++ s ++ "\x27"
  | .arr xs => "[" ++ pyReprList xs ++ "]"
  | .obj fs => "\x7b" ++ pyReprFields fs ++ "\x7d"

/-- Comma-separated repr of the elements of a list value. -/
def pyReprList : List JValue → String
  | [] => ""
  | [v] => pyRepr v
  | v :: rest => pyRepr v ++ ", " ++ pyReprList rest

/-- Comma-separated repr of the entries of a dictionary value. -/
def pyReprFields : List (String × JValue) → String
  | [] => ""
  | [(k, v)] => "\x27" ++ k ++ "\x27: " ++ pyRepr v
  | (k, v) :: rest => "\x27" ++ k ++ "\x27: " ++ pyRepr v ++ ", " ++ pyReprFields rest
end

/-- Python str() of a value as interpolated by an f-string: a string renders
without quotes, everything else as its repr. -/
def pyStr : JValue → String
  | .str s => s
  | v => pyRepr v

/-- Python subscript v[k]: the stored value for a dictionary key, a KeyError
for a missing key, a TypeError when the value is not a dictionary. -/
def jIndex (v : JValue) (k : String) : Except String JValue :=
  match v with
  | .obj fs =>
    match fs.lookup k with
    | some w => .ok w
    | none => .error ("KeyError: " ++ k)
  | _ => .error ("TypeError: value is not subscriptable at key " ++ k)

/-- Total-hit extraction of search.py line 63: a dictionary total is
subscripted at value (KeyError when that key is absent), any other total is
used as-is. -/
def extractTotal (total : JValue) : Except String JValue :=
  match total with
  | .obj fs =>
    match fs.lookup "value" with
    | some v => .ok v
    | none => .error "KeyError: value"
  | t => .ok t

/-- Separator of 70 equality signs printed around the header. -/
def eqLine : String :=
  ⟨List.replicate 70 '='⟩

/-- Separator of 70 dashes printed after each hit. -/
def dashLine : String :=
  ⟨List.replicate 70 '-'⟩

/-- Header lines of display_search_results (search.py lines 65-68). -/
def headerLines (queryText : String) (total : JValue) : List String :=
  ["\n" ++ eqLine,
   "Query: " ++ queryText,
   "Total hits: " ++ pyStr total,
   eqLine ++ "\n"]

/-- Formatting of one hit (search.py lines 72-84). Each print appends one
line; an error carries the lines already printed. The subscripts _score,
_id and _source can raise; the source must be a dictionary for .get; the
snippet step raises a TypeError unless the text value is a string (slicing
None, a number or a dictionary raises, and a sliced list cannot be
concatenated with the ellipsis string), an absent text key defaulting to the
empty string first. -/
def displayHit (i : Nat) (hit : JValue) : List String × Option String :=
  let l0 := ["Result #" ++ toString i]
  match jIndex hit "_score" with
  | .error e => (l0, some e)
  | .ok score =>
    let l1 := l0 ++ ["Score : " ++ pyStr score]
    match jIndex hit "_id" with
    | .error e => (l1, some e)
    | .ok hid =>
      let l2 := l1 ++ ["ID    : " ++ pyStr hid]
      match jIndex hit "_source" with
      | .error e => (l2, some e)
      | .ok src =>
        match src with
        | .obj fs =>
          let l3 := l2 ++ ["Title : " ++ pyStr (pyGetD fs "title" (.str "(no title)"))]
          match pyGetD fs "text" (.str "") with
          | .str t =>
            let l4 := l3 ++ ["Snippet:\n" ++ makeSnippet t]
            let l5 := l4 ++ ["Author: " ++ pyStr (pyGetD fs "author" (.str "(no author)"))]
            let l6 := l5 ++ ["Published: " ++ pyStr (pyGetD fs "published" (.str "(no date)"))]
            let l7 := l6 ++ ["Language: " ++ pyStr (pyGetD fs "language" (.str "(no language)"))]
            let l8 := l7 ++ ["URL: " ++ pyStr (pyGetD fs "url" (.str "(no url)"))]
            let l9 := l8 ++ ["Categories: " ++ pyStr (pyGetD fs "categories" (.str "(no categories)"))]
            (l9 ++ [dashLine ++ "\n"], none)
          | _ => (l3, some "TypeError: text value does not support slice and concatenation")
        | _ => (l2, some "AttributeError: source value has no attribute get")

/-- Loop over the hits with Python enumerate starting at 1; the first hit
whose formatting raises ends the run with its error. -/
def displayHits : Nat → List JValue → List String × Option String
  | _, [] => ([], none)
  | i, hit :: rest =>
    match displayHit i hit with
    | (ls, none) =>
      let r := displayHits (i + 1) rest
      (ls ++ r.1, r.2)
    | (ls, some e) => (ls, some e)

/-- Python iteration over a JSON value: lists iterate their elements,
dictionaries their keys, strings their characters; other values raise. -/
def pyIterate : JValue → Option (List JValue)
  | .arr xs => some xs
  | .obj fs => some (fs.map (fun kv => .str kv.1))
  | .str s => some (s.data.map (fun c => .str ⟨[c]⟩))
  | _ => none

/-- display_search_results from search.py lines 50-84: a falsy result prints
one line and returns; otherwise the total is read (line 63) before the
header is printed, then the hits are formatted in order until one raises.
The result pairs the printed lines with the error that escaped, if any. -/
def display_search_results (searchResults : Option JValue) (queryText : String) :
    List String × Option String :=
  match searchResults with
  | none => (["No results found."], none)
  | some res =>
    if truthy res = false then (["No results found."], none)
    else
      match jIndex res "hits" with
      | .error e => ([], some e)
      | .ok hits =>
        match jIndex hits "total" with
        | .error e => ([], some e)
        | .ok totalRaw =>
          match extractTotal totalRaw with
          | .error e => ([], some e)
          | .ok total =>
            match jIndex hits "hits" with
            | .error e => (headerLines queryText total, some e)
            | .ok hitsVal =>
              match pyIterate hitsVal with
              | some hitList =>
                let r := displayHits 1 hitList
                (headerLines queryText total ++ r.1, r.2)
              | none =>
                (headerLines queryText total, some "TypeError: hits value is not iterable")

/-- Result envelope as returned by the external service: hits.total plus the
hit list under hits.hits. -/
def resEnvelope (total : JValue) (hits : List JValue) : JValue :=
  .obj [("hits", .obj [("total", total), ("hits", .arr hits)])]

/-- C9: the displayed report is identical whether the service reports the
total as a bare number n or as an object carrying n under value, and in both
forms the printed total line shows n. -/
theorem C9_total_forms (queryText : String) (n : Int) (hits : List JValue) :
    display_search_results (some (resEnvelope (.num n) hits)) queryText
      = display_search_results (some (resEnvelope (.obj [("value", .num n)]) hits)) queryText
    ∧ ("Total hits: " ++ toString n)
        ∈ (display_search_results (some (resEnvelope (.num n) hits)) queryText).1 := by
  constructor
  · simp [display_search_results, resEnvelope, truthy, jIndex, extractTotal,
      List.lookup, pyIterate]
  · simp [display_search_results, resEnvelope, truthy, jIndex, extractTotal,
      List.lookup, pyIterate, headerLines, pyStr, pyRepr]

/-- Stored source fields of a document as they appear in a hit, in the key
order built by data_indexer.py lines 38-48. -/
def docFields (d : Doc) : List (String × JValue) :=
  [("uuid", d.uuid), ("title", d.title), ("text", d.text), ("author", d.author),
   ("published", d.published), ("language", d.language), ("sentiment", d.sentiment),
   ("categories", d.categories), ("url", d.url)]

/-- C8, as stated, is refuted here: for a hit produced by this pipeline for
an empty source object — where every absent source field is stored as an
explicit null under a present key — the presenter renders the stored null
(printed None) instead of the placeholder, because .get only falls back to
the placeholder when the key itself is absent. -/
theorem C8_counterexample :
    ("Title : None")
      ∈ (displayHit 1 (.obj [("_score", .num 1), ("_id", .str "x"),
          ("_source", .obj (docFields (projectDoc [] (.str "x"))))])).1
    ∧ ¬ ("Title : (no title)")
      ∈ (displayHit 1 (.obj [("_score", .num 1), ("_id", .str "x"),
          ("_source", .obj (docFields (projectDoc [] (.str "x"))))])).1 := by
  constructor <;> decide

/-- C8 (amended): the presenter prints the placeholder for title, snippet
text, author, published date, language, url and categories exactly when the
corresponding key is absent from the hit source; hits produced by this
pipeline always carry the keys (holding null for absent source fields), so
for them the stored null is rendered instead of the placeholder. -/
theorem C8_amended (i : Nat) (score hid : JValue) (fs : List (String × JValue))
    (htitle : fs.lookup "title" = none) (htext : fs.lookup "text" = none)
    (hauthor : fs.lookup "author" = none) (hpub : fs.lookup "published" = none)
    (hlang : fs.lookup "language" = none) (hurl : fs.lookup "url" = none)
    (hcat : fs.lookup "categories" = none) :
    displayHit i (.obj [("_score", score), ("_id", hid), ("_source", .obj fs)])
      = (["Result #" ++ toString i,
          "Score : " ++ pyStr score,
          "ID    : " ++ pyStr hid,
          "Title : (no title)",
          "Snippet:\n",
          "Author: (no author)",
          "Published: (no date)",
          "Language: (no language)",
          "URL: (no url)",
          "Categories: (no categories)",
          dashLine ++ "\n"], none) := by
  simp [displayHit, jIndex, List.lookup, pyGetD, htitle, htext, hauthor, hpub,
    hlang, hurl, hcat, makeSnippet, strSlice, pyStr]

theorem C8_amended_witness :
    displayHit 3 (.obj [("_score", .num 2), ("_id", .str "y"), ("_source", .obj [])])
      = (["Result #3", "Score : 2", "ID    : y", "Title : (no title)", "Snippet:\n",
          "Author: (no author)", "Published: (no date)", "Language: (no language)",
          "URL: (no url)", "Categories: (no categories)", dashLine ++ "\n"], none) := by
  rw [C8_amended 3 (.num 2) (.str "y") [] rfl rfl rfl rfl rfl rfl rfl]
  decide

/-- Lines printed by a run of hits that all format without error, with
Python enumerate numbering from i. -/
def hitsLines (i : Nat) : List JValue → List String
  | [] => []
  | h :: rest => (displayHit i h).1 ++ hitsLines (i + 1) rest

theorem displayHits_until_error (bad : JValue) (post : List JValue) (e : String) :
    ∀ (pre : List JValue) (i : Nat),
      (∀ h ∈ pre, ∀ j, (displayHit j h).2 = none) →
      (displayHit (i + pre.length) bad).2 = some e →
      displayHits i (pre ++ bad :: post)
        = (hitsLines i pre ++ (displayHit (i + pre.length) bad).1, some e) := by
  intro pre
  induction pre with
  | nil =>
    intro i hpre hbad
    simp only [List.length_nil, Nat.add_zero] at hbad ⊢
    rcases hb : displayHit i bad with ⟨ls, er⟩
    rw [hb] at hbad
    simp only at hbad
    subst hbad
    simp [displayHits, hitsLines, hb]
  | cons h rest ih =>
    intro i hpre hbad
    have hh := hpre h (by simp) i
    rcases hb : displayHit i h with ⟨ls, er⟩
    rw [hb] at hh
    simp only at hh
    subst hh
    have hlen : i + (h :: rest).length = (i + 1) + rest.length := by
      simp [List.length_cons]
      omega
    rw [hlen] at hbad
    have ihr := ih (i + 1) (fun x hx j => hpre x (by simp [hx]) j) hbad
    simp only [List.cons_append, displayHits, hb, hitsLines, hlen]
    simp [ihr, List.append_assoc]

/-- C10: the presenter is not total over the documents this pipeline itself
indexes. For every result set whose hit list contains — after any hits that
format cleanly — a hit whose source carries the text key mapped to null
(exactly what the extractor stores for an item with no text), the snippet
computation raises, the report stops right after that hit's title line, and
neither the remaining fields of that hit nor any later hit is printed. -/
theorem C10_null_text_aborts (queryText : String) (m : Int)
    (pre post : List JValue) (score hid : JValue) (fs : List (String × JValue))
    (htext : fs.lookup "text" = some .null)
    (hpre : ∀ h ∈ pre, ∀ j, (displayHit j h).2 = none) :
    display_search_results
        (some (resEnvelope (.num m)
          (pre ++ (.obj [("_score", score), ("_id", hid), ("_source", .obj fs)]) :: post)))
        queryText
      = (headerLines queryText (.num m) ++ (hitsLines 1 pre
          ++ ["Result #" ++ toString (1 + pre.length),
              "Score : " ++ pyStr score,
              "ID    : " ++ pyStr hid,
              "Title : " ++ pyStr (pyGetD fs "title" (.str "(no title)"))]),
         some "TypeError: text value does not support slice and concatenation") := by
  have hbad : displayHit (1 + pre.length)
      (.obj [("_score", score), ("_id", hid), ("_source", .obj fs)])
      = (["Result #" ++ toString (1 + pre.length),
          "Score : " ++ pyStr score,
          "ID    : " ++ pyStr hid,
          "Title : " ++ pyStr (pyGetD fs "title" (.str "(no title)"))],
         some "TypeError: text value does not support slice and concatenation") := by
    have hpg : pyGetD fs "text" (.str "") = .null := by simp [pyGetD, htext]
    simp [displayHit, jIndex, List.lookup, hpg]
  have hrun := displayHits_until_error
    (.obj [("_score", score), ("_id", hid), ("_source", .obj fs)]) post
    "TypeError: text value does not support slice and concatenation" pre 1 hpre
    (by rw [hbad])
  rw [hbad] at hrun
  simp [display_search_results, resEnvelope, truthy, jIndex, extractTotal,
    List.lookup, pyIterate, hrun]

theorem C10_null_text_aborts_witness :
    ((docFields (projectDoc [] (.str "x"))).lookup "text" = some JValue.null)
    ∧ display_search_results
        (some (resEnvelope (.num 1)
          [.obj [("_score", .num 1), ("_id", .str "x"),
                 ("_source", .obj (docFields (projectDoc [] (.str "x"))))],
           .obj [("_score", .num 2)]]))
        "cats"
      = (headerLines "cats" (.num 1)
          ++ ["Result #1", "Score : 1", "ID    : x", "Title : None"],
         some "TypeError: text value does not support slice and concatenation") := by
  constructor
  · rfl
  · have h := C10_null_text_aborts "cats" 1 [] [.obj [("_score", .num 2)]]
      (.num 1) (.str "x") (docFields (projectDoc [] (.str "x")))
      (by rfl) (by simp)
    rw [List.nil_append] at h
    rw [h]
    decide
